import Mathlib

/-!
Verification development for the Facsimile memory-management layer:
the replacement global allocation operators and the `Facsimile::Collectable`
base class (src/src/Facsimile/Collectable.cpp, src/include/Facsimile/Collectable.hpp).

The Boehm collector is an external collaborator; it is modelled here by a
small executable heap: `gcAlloc` (GC_MALLOC / GC_MALLOC_UNCOLLECTABLE),
`gcFree` (GC_FREE), `gcBase` (GC_base) and
`gcRegisterFinalizerIgnoreSelf` (GC_REGISTER_FINALIZER_IGNORE_SELF).
Pointers are natural numbers, with 0 playing the role of the null pointer;
the model heap hands out fresh non-null pointers and grants a request
exactly when the requested size fits in the available space (in particular a
zero-size request always succeeds, matching the collector behaviour the
source comments rely on: a size of 0 still yields a pointer).

The process-wide new handler (std::set_new_handler slot) is part of the
machine state.  Handlers are application code; they are modelled by an
environment mapping a handler index and an invocation count to an observable
action (free memory, raise an exception, install another handler, or do
nothing).  The C++ retry loops in `operator new` are embedded as the
fuel-indexed function `newRetryLoop`.
-/

namespace Facsimile

/-- Machine addresses; 0 encodes the C++ null pointer. -/
abbrev Ptr := Nat

/-- Region of the collector heap an allocation was made in:
GC_MALLOC yields collectable memory, GC_MALLOC_UNCOLLECTABLE yields
uncollectable (manually freed, but scanned) memory. -/
inductive Region where
  | collectable
  | uncollectable
deriving DecidableEq

/-- One live allocation tracked by the collector: its start address, its
requested size in chars, and the region it was allocated in. -/
structure Alloc where
  ptr : Ptr
  size : Nat
  region : Region
deriving DecidableEq

/-- The collector's state: available space, a fresh-pointer counter, the
live allocations, and the finalizer table.  An entry `(base, off)` of `fin`
records that `Collectable::cleanup` is registered for the allocation at
`base` with offset argument `off`. -/
structure Heap where
  avail : Nat
  next : Ptr
  allocs : List Alloc
  fin : List (Ptr × Nat)
deriving DecidableEq

/-- Collector allocation (GC_MALLOC when `region` is collectable,
GC_MALLOC_UNCOLLECTABLE otherwise): grants a fresh non-null pointer when the
requested size fits in the available space, and fails with a null result
otherwise. -/
def gcAlloc (region : Region) (size : Nat) (h : Heap) : Option Ptr × Heap :=
  if size ≤ h.avail then
    (some (h.next + 1),
      { h with
          avail := h.avail - size
          next := h.next + 1
          allocs := ⟨h.next + 1, size, region⟩ :: h.allocs })
  else (none, h)

/-- Collector free (GC_FREE): drops the allocation at `p`; a null or unknown
pointer is a no-op, as the source's test suite checks for GC_FREE(0). -/
def gcFree (p : Ptr) (h : Heap) : Heap :=
  { h with allocs := h.allocs.filter (fun a => decide (a.ptr ≠ p)) }

/-- Collector base-address query (GC_base): the start address of the live
allocation containing `q`, or null (here `none`) when `q` does not point
into the collector heap. -/
def gcBase (q : Ptr) (h : Heap) : Option Ptr :=
  (h.allocs.find? (fun a => decide (a.ptr ≤ q ∧ q < a.ptr + a.size))).map Alloc.ptr

/-- Collector finalizer registration (GC_REGISTER_FINALIZER_IGNORE_SELF).
The only callback the source ever registers is `Collectable::cleanup`, so
the callback argument is modelled as a flag: `true` registers cleanup with
the given offset (replacing any previous registration for `base`), and
`false` — the null callback — deregisters.  Self-references are ignored by
the collector's reachability analysis; that choice is carried by which GC
entry point is called and has no observable effect in this model. -/
def gcRegisterFinalizerIgnoreSelf (base : Ptr) (callback : Bool) (offset : Nat)
    (h : Heap) : Heap :=
  if callback then
    { h with fin := (base, offset) :: h.fin.filter (fun e => decide (e.1 ≠ base)) }
  else
    { h with fin := h.fin.filter (fun e => decide (e.1 ≠ base)) }

/-- Look up the registered finalizer offset for a base address. -/
def finLookup (base : Ptr) (h : Heap) : Option Nat :=
  (h.fin.find? (fun e => decide (e.1 = base))).map Prod.snd

/-- Number of finalizer-table entries for a base address. -/
def finCount (base : Ptr) (h : Heap) : Nat :=
  h.fin.countP (fun e => decide (e.1 = base))

/-- Observable action an application-supplied new handler performs when
invoked: reclaim `n` chars of memory, raise std::bad_alloc, raise some
other exception, change the installed new handler, or return having done
nothing. -/
inductive HandlerAction where
  | free (n : Nat)
  | raiseBadAlloc
  | raiseOther (code : Nat)
  | installHandler (h : Option Nat)
  | nop
deriving DecidableEq

/-- Handler environment: the behaviour of the handler with a given index on
its given invocation (counted process-wide). -/
def HandlerEnv := Nat → Nat → HandlerAction

/-- Exceptions observable from this layer.  `badAlloc` is std::bad_alloc
(OutOfMemory); the two array exceptions are
Facsimile::X::ArrayNewNotSupportedException and
Facsimile::X::ArrayDeleteNotSupportedException, which derive from
NotSupportedException, not from std::bad_alloc; `other` stands for any
further exception a new handler may raise. -/
inductive Exn where
  | badAlloc
  | arrayNewNotSupported
  | arrayDeleteNotSupported
  | other (code : Nat)
deriving DecidableEq

/-- Process state seen by the allocation operators: the collector heap, the
std::set_new_handler slot (`none` is the null handler), and the cumulative
count of handler invocations (used to observe how often handlers ran). -/
structure MemState where
  heap : Heap
  handler : Option Nat
  hcount : Nat
deriving DecidableEq

/-- Invoke a new handler: look up its action in the environment at the
current invocation count, bump the count, and apply the action, possibly
raising an exception. -/
def runHandler (env : HandlerEnv) (hi : Nat) (st : MemState) :
    Option Exn × MemState :=
  let st1 : MemState := { st with hcount := st.hcount + 1 }
  match env hi st.hcount with
  | .free n =>
      (none, { st1 with heap := { st1.heap with avail := st1.heap.avail + n } })
  | .raiseBadAlloc => (some .badAlloc, st1)
  | .raiseOther code => (some (.other code), st1)
  | .installHandler ho => (none, { st1 with handler := ho })
  | .nop => (none, st1)

/-- Result of a throwing allocation operator: a (non-null) pointer, a raised
exception, or fuel exhaustion (the C++ loop not terminating within the given
number of iterations). -/
inductive NewResult where
  | ok (p : Ptr)
  | raised (e : Exn)
  | outOfFuel
deriving DecidableEq

/-- The retry loop shared verbatim by the two throwing allocation entry
points (`::operator new(std::size_t)` with the uncollectable region, and
`Facsimile::Collectable::operator new(size_t)` with the collectable region;
their C++ bodies are identical apart from the GC allocation call).  One
iteration: request memory; on success return the pointer; on failure read
the new handler by `std::set_new_handler(0)`; if it was null, throw
std::bad_alloc; otherwise restore it with `std::set_new_handler(handler)`,
call it, and loop. -/
def newRetryLoop (env : HandlerEnv) (region : Region) :
    Nat → Nat → MemState → NewResult × MemState
  | 0, _, st => (.outOfFuel, st)
  | fuel + 1, size, st =>
    match gcAlloc region size st.heap with
    | (some p, h1) => (.ok p, { st with heap := h1 })
    | (none, h1) =>
      let st1 : MemState := { st with heap := h1 }
      let saved := st1.handler
      let st2 : MemState := { st1 with handler := none }
      match saved with
      | none => (.raised .badAlloc, st2)
      | some hi =>
        let st3 : MemState := { st2 with handler := some hi }
        match runHandler env hi st3 with
        | (some e, st4) => (.raised e, st4)
        | (none, st4) => newRetryLoop env region fuel size st4

/-- Replacement global `::operator new(std::size_t)`: the retry loop over
uncollectable memory. -/
def opNewGlobal (env : HandlerEnv) (fuel size : Nat) (st : MemState) :
    NewResult × MemState :=
  newRetryLoop env .uncollectable fuel size st

/-- Replacement global `::operator new[](std::size_t)`: delegates to the
single-object throwing operator. -/
def opNewArrayGlobal (env : HandlerEnv) (fuel size : Nat) (st : MemState) :
    NewResult × MemState :=
  opNewGlobal env fuel size st

/-- Result of a non-throwing allocation operator: a returned pointer value
(`ret 0` is the C++ null return), a raised exception, or fuel
exhaustion. -/
inductive NothrowResult where
  | ret (p : Ptr)
  | raised (e : Exn)
  | outOfFuel
deriving DecidableEq

/-- Outcome conversion performed by the try/catch(std::bad_alloc) wrapper
shared by both non-throwing operators: a returned pointer is passed through,
a caught std::bad_alloc becomes the null (0) return, and any other exception
propagates. -/
def catchBadAlloc : NewResult × MemState → NothrowResult × MemState
  | (.ok p, st1) => (.ret p, st1)
  | (.raised .badAlloc, st1) => (.ret 0, st1)
  | (.raised e, st1) => (.raised e, st1)
  | (.outOfFuel, st1) => (.outOfFuel, st1)

/-- Replacement global `::operator new(std::size_t, const std::nothrow_t&)`:
calls the throwing operator inside try/catch(std::bad_alloc), converting that
exception — and only that exception — into a null (0) return. -/
def opNewGlobalNothrow (env : HandlerEnv) (fuel size : Nat) (st : MemState) :
    NothrowResult × MemState :=
  catchBadAlloc (opNewGlobal env fuel size st)

/-- Replacement global `::operator new[](std::size_t, const std::nothrow_t&)`:
delegates to the single-object non-throwing operator. -/
def opNewArrayGlobalNothrow (env : HandlerEnv) (fuel size : Nat) (st : MemState) :
    NothrowResult × MemState :=
  opNewGlobalNothrow env fuel size st

/-- Replacement global `::operator delete(void*)`: GC_FREE, null accepted as
a no-op. -/
def opDeleteGlobal (p : Ptr) (st : MemState) : MemState :=
  { st with heap := gcFree p st.heap }

/-- Replacement global `::operator delete(void*, const std::nothrow_t&)`:
identical to the regular single version. -/
def opDeleteGlobalNothrow (p : Ptr) (st : MemState) : MemState :=
  opDeleteGlobal p st

/-- Replacement global `::operator delete[](void*)`: identical to the
regular single version. -/
def opDeleteArrayGlobal (p : Ptr) (st : MemState) : MemState :=
  opDeleteGlobal p st

/-- Replacement global `::operator delete[](void*, const std::nothrow_t&)`:
identical to the regular single version. -/
def opDeleteArrayGlobalNothrow (p : Ptr) (st : MemState) : MemState :=
  opDeleteGlobal p st

namespace Collectable

/-- Embeds `Facsimile::Collectable::operator new(size_t)`: the same retry loop, but
over collectable memory (GC_MALLOC). -/
def opNew (env : HandlerEnv) (fuel size : Nat) (st : MemState) :
    NewResult × MemState :=
  newRetryLoop env .collectable fuel size st

/-- Embeds `Facsimile::Collectable::operator new(size_t, const std::nothrow_t&)`:
calls the class throwing operator inside try/catch(std::bad_alloc),
converting only that exception into a null (0) return. -/
def opNewNothrow (env : HandlerEnv) (fuel size : Nat) (st : MemState) :
    NothrowResult × MemState :=
  catchBadAlloc (opNew env fuel size st)

/-- Embeds `Facsimile::Collectable::operator delete(void*)`: delegates to the
replacement global delete (GC_FREE). -/
def opDelete (p : Ptr) (st : MemState) : MemState :=
  opDeleteGlobal p st

/-- Embeds `Facsimile::Collectable::operator delete(void*, const std::nothrow_t&)`:
delegates to the replacement global delete. -/
def opDeleteNothrow (p : Ptr) (st : MemState) : MemState :=
  opDeleteGlobal p st

/-- Embeds `Facsimile::Collectable::operator new[](size_t)`: unconditionally throws
ArrayNewNotSupportedException, touching nothing. -/
def opNewArray (_size : Nat) (st : MemState) : NewResult × MemState :=
  (.raised .arrayNewNotSupported, st)

/-- Embeds `Facsimile::Collectable::operator new[](size_t, const std::nothrow_t&)`:
unconditionally throws ArrayNewNotSupportedException, touching nothing. -/
def opNewArrayNothrow (_size : Nat) (st : MemState) : NothrowResult × MemState :=
  (.raised .arrayNewNotSupported, st)

/-- Embeds `Facsimile::Collectable::operator delete[](void*)`: unconditionally
throws ArrayDeleteNotSupportedException, touching nothing. -/
def opDeleteArray (_p : Ptr) (st : MemState) : Option Exn × MemState :=
  (some .arrayDeleteNotSupported, st)

/-- Embeds `Facsimile::Collectable::operator delete[](void*, const std::nothrow_t&)`:
unconditionally throws ArrayDeleteNotSupportedException, touching nothing. -/
def opDeleteArrayNothrow (_p : Ptr) (st : MemState) : Option Exn × MemState :=
  (some .arrayDeleteNotSupported, st)

/-- Embeds `Facsimile::Collectable::initialize()`, run by both the default and the
copy constructor for the instance at address `thisAddr`: query GC_base for
the containing allocation; if null, do nothing; otherwise compute
`offset = thisAddr - base` (the source asserts `this >= base`) and register
the cleanup finalizer for `(base, cleanup, offset)`. -/
def initializeImpl (thisAddr : Ptr) (st : MemState) : MemState :=
  match gcBase thisAddr st.heap with
  | none => st
  | some base =>
      { st with
          heap := gcRegisterFinalizerIgnoreSelf base true (thisAddr - base) st.heap }

/-- Embeds `Facsimile::Collectable::~Collectable()` body: query GC_base for the
containing allocation; if the instance lives on the collector heap, pass the
null callback to GC_REGISTER_FINALIZER_IGNORE_SELF, deregistering any
finalizer for that base address; otherwise do nothing. -/
def dtorImpl (thisAddr : Ptr) (st : MemState) : MemState :=
  match gcBase thisAddr st.heap with
  | none => st
  | some base =>
      { st with heap := gcRegisterFinalizerIgnoreSelf base false 0 st.heap }

/-- Address reconstruction performed by `Facsimile::Collectable::cleanup`:
`base + offset` char arithmetic recovering the registered subobject. -/
def cleanupTarget (base : Ptr) (offsetChars : Nat) : Ptr :=
  base + offsetChars

end Collectable

/-- Observable events during destruction of a Collectable-derived object,
used to reason about ordering on the manual-deallocation path. -/
inductive Event where
  | dtorBody (level : Nat) (addr : Ptr)
  | finCancel (base : Ptr)
  | memFree (p : Ptr)
deriving DecidableEq

/-- Whether an event is a destructor body of a derived class layer. -/
def Event.isDtorBody : Event → Bool
  | .dtorBody _ _ => true
  | _ => false

/-- Whether an event is the cancellation of a finalizer registration (the
null-callback GC_REGISTER_FINALIZER_IGNORE_SELF call). -/
def Event.isFinCancel : Event → Bool
  | .finCancel _ => true
  | _ => false

/-- Whether an event is the release of memory back to the collector. -/
def Event.isMemFree : Event → Bool
  | .memFree _ => true
  | _ => false

namespace Collectable

/-- Event trace of running the destructor chain of an object at `addr`
whose dynamic type has `levels` destructor bodies derived above
`Facsimile::Collectable` (C++ runs them top-most-derived first, so level 0
is the most derived).  The base `~Collectable()` body runs last; it emits
the finalizer cancellation exactly when GC_base reports a collector
allocation (`base` is the GC_base answer). -/
def dtorChainTrace (levels : Nat) (addr : Ptr) (base : Option Ptr) : List Event :=
  (List.range levels).map (fun i => Event.dtorBody i addr) ++
    (match base with
     | some b => [Event.finCancel b]
     | none => [])

/-- Event trace of the C++ expression `delete p` on a Collectable-derived
object at `addr`: the full destructor chain (derived bodies, then the base
`~Collectable` body with its conditional finalizer cancellation), followed
by `Collectable::operator delete`, which forwards to the replacement global
delete, i.e. GC_FREE. -/
def deleteExprTrace (levels : Nat) (addr : Ptr) (base : Option Ptr) : List Event :=
  dtorChainTrace levels addr base ++ [Event.memFree addr]

/-- Event trace of the finalizer callback `Collectable::cleanup(base, offset)`
run by the collector: it reconstructs `base + offset` and invokes the
virtual destructor chain of the object found there (GC_base still reports
`base` while the finalizer runs, so the base destructor deregisters). -/
def cleanupTrace (levels : Nat) (base : Ptr) (offsetChars : Nat) : List Event :=
  dtorChainTrace levels (cleanupTarget base offsetChars) (some base)

end Collectable

/-- Scans a trace and checks that no `q`-event occurs strictly after a
`p`-event; used to state ordering properties of destruction traces. -/
def noLaterOcc (p q : Event → Bool) : List Event → Bool
  | [] => true
  | e :: rest =>
      (if p e then rest.all (fun x => !q x) else true) && noLaterOcc p q rest

/-! Helper lemmas about the collector model and the retry loop. -/

theorem gcAlloc_of_le {size : Nat} {h : Heap} (region : Region)
    (hle : size ≤ h.avail) :
    gcAlloc region size h =
      (some (h.next + 1),
        { h with
            avail := h.avail - size
            next := h.next + 1
            allocs := ⟨h.next + 1, size, region⟩ :: h.allocs }) := by
  simp [gcAlloc, hle]

theorem gcAlloc_of_lt {size : Nat} {h : Heap} (region : Region)
    (hlt : h.avail < size) :
    gcAlloc region size h = (none, h) := by
  simp [gcAlloc, Nat.not_le.mpr hlt]

theorem runHandler_fin (env : HandlerEnv) (hi : Nat) (st : MemState) :
    (runHandler env hi st).2.heap.fin = st.heap.fin := by
  unfold runHandler
  cases env hi st.hcount <;> simp

theorem runHandler_allocs (env : HandlerEnv) (hi : Nat) (st : MemState) :
    (runHandler env hi st).2.heap.allocs = st.heap.allocs := by
  unfold runHandler
  cases env hi st.hcount <;> simp

theorem runHandler_hcount (env : HandlerEnv) (hi : Nat) (st : MemState) :
    (runHandler env hi st).2.hcount = st.hcount + 1 := by
  unfold runHandler
  cases env hi st.hcount <;> simp

theorem runHandler_handler (env : HandlerEnv) (hi : Nat) (st : MemState)
    (hno : ∀ ho, env hi st.hcount ≠ .installHandler ho) :
    (runHandler env hi st).2.handler = st.handler := by
  unfold runHandler
  cases hact : env hi st.hcount <;> simp
  exact absurd hact (hno _)

theorem newRetryLoop_zero (env : HandlerEnv) (region : Region) (size : Nat)
    (st : MemState) :
    newRetryLoop env region 0 size st = (.outOfFuel, st) := rfl

theorem newRetryLoop_succ_of_le (env : HandlerEnv) (region : Region)
    {size : Nat} {st : MemState} (fuel : Nat) (hle : size ≤ st.heap.avail) :
    newRetryLoop env region (fuel + 1) size st =
      (.ok (st.heap.next + 1),
        { st with
            heap :=
              { st.heap with
                  avail := st.heap.avail - size
                  next := st.heap.next + 1
                  allocs := ⟨st.heap.next + 1, size, region⟩ :: st.heap.allocs } }) := by
  rw [newRetryLoop, gcAlloc_of_le region hle]

theorem newRetryLoop_succ_of_no_handler (env : HandlerEnv) (region : Region)
    {size : Nat} {st : MemState} (fuel : Nat) (hlt : st.heap.avail < size)
    (hh : st.handler = none) :
    newRetryLoop env region (fuel + 1) size st = (.raised .badAlloc, st) := by
  have hst : ({ st with handler := none } : MemState) = st := by rw [← hh]
  rw [newRetryLoop, gcAlloc_of_lt region hlt]
  simp only [hh, hst]

theorem newRetryLoop_succ_of_handler_raise (env : HandlerEnv) (region : Region)
    {size hi : Nat} {st st4 : MemState} {e : Exn} (fuel : Nat)
    (hlt : st.heap.avail < size) (hh : st.handler = some hi)
    (hr : runHandler env hi st = (some e, st4)) :
    newRetryLoop env region (fuel + 1) size st = (.raised e, st4) := by
  have hst : ({ st with handler := some hi } : MemState) = st := by rw [← hh]
  rw [newRetryLoop, gcAlloc_of_lt region hlt]
  simp only [hh, hst, hr]

theorem newRetryLoop_succ_of_handler_ok (env : HandlerEnv) (region : Region)
    {size hi : Nat} {st st4 : MemState} (fuel : Nat)
    (hlt : st.heap.avail < size) (hh : st.handler = some hi)
    (hr : runHandler env hi st = (none, st4)) :
    newRetryLoop env region (fuel + 1) size st =
      newRetryLoop env region fuel size st4 := by
  have hst : ({ st with handler := some hi } : MemState) = st := by rw [← hh]
  rw [newRetryLoop, gcAlloc_of_lt region hlt]
  simp only [hh, hst, hr]

theorem runHandler_free_eq (env : HandlerEnv) {hi m : Nat} (st : MemState)
    (hact : env hi st.hcount = .free m) :
    runHandler env hi st =
      (none,
        { st with
            hcount := st.hcount + 1
            heap := { st.heap with avail := st.heap.avail + m } }) := by
  unfold runHandler
  rw [hact]

theorem newRetryLoop_ok_ne_zero (env : HandlerEnv) (region : Region)
    (fuel : Nat) : ∀ {size : Nat} (st : MemState) {p : Ptr} {st' : MemState},
    newRetryLoop env region fuel size st = (.ok p, st') → p ≠ 0 := by
  induction fuel with
  | zero =>
      intro size st p st' heq
      rw [newRetryLoop_zero] at heq
      cases heq
  | succ n ih =>
      intro size st p st' heq
      rcases Nat.lt_or_ge st.heap.avail size with hlt | hge
      · rcases hh : st.handler with _ | hi
        · rw [newRetryLoop_succ_of_no_handler env region n hlt hh] at heq
          cases heq
        · rcases hr : runHandler env hi st with ⟨oe, st4⟩
          rcases oe with _ | e
          · rw [newRetryLoop_succ_of_handler_ok env region n hlt hh hr] at heq
            exact ih st4 heq
          · rw [newRetryLoop_succ_of_handler_raise env region n hlt hh hr] at heq
            cases heq
      · rw [newRetryLoop_succ_of_le env region n hge] at heq
        injection heq with h1 h2
        injection h1 with h1
        exact h1 ▸ Nat.succ_ne_zero st.heap.next

theorem newRetryLoop_ok_mem (env : HandlerEnv) (region : Region)
    (fuel : Nat) : ∀ {size : Nat} (st : MemState) {p : Ptr} {st' : MemState},
    newRetryLoop env region fuel size st = (.ok p, st') →
    (⟨p, size, region⟩ : Alloc) ∈ st'.heap.allocs := by
  induction fuel with
  | zero =>
      intro size st p st' heq
      rw [newRetryLoop_zero] at heq
      cases heq
  | succ n ih =>
      intro size st p st' heq
      rcases Nat.lt_or_ge st.heap.avail size with hlt | hge
      · rcases hh : st.handler with _ | hi
        · rw [newRetryLoop_succ_of_no_handler env region n hlt hh] at heq
          cases heq
        · rcases hr : runHandler env hi st with ⟨oe, st4⟩
          rcases oe with _ | e
          · rw [newRetryLoop_succ_of_handler_ok env region n hlt hh hr] at heq
            exact ih st4 heq
          · rw [newRetryLoop_succ_of_handler_raise env region n hlt hh hr] at heq
            cases heq
      · rw [newRetryLoop_succ_of_le env region n hge] at heq
        injection heq with h1 h2
        injection h1 with h1
        rw [← h2, ← h1]
        exact List.mem_cons_self _ _

/-- An environment whose handlers never change the installed new handler. -/
def noInstallEnv (env : HandlerEnv) : Prop :=
  ∀ h i ho, env h i ≠ .installHandler ho

theorem newRetryLoop_handler_frame (env : HandlerEnv) (region : Region)
    (hni : noInstallEnv env) (fuel : Nat) :
    ∀ {size : Nat} (st : MemState),
    ((newRetryLoop env region fuel size st).2).handler = st.handler := by
  induction fuel with
  | zero =>
      intro size st
      rw [newRetryLoop_zero]
  | succ n ih =>
      intro size st
      rcases Nat.lt_or_ge st.heap.avail size with hlt | hge
      · rcases hh : st.handler with _ | hi
        · rw [newRetryLoop_succ_of_no_handler env region n hlt hh, hh]
        · rcases hr : runHandler env hi st with ⟨oe, st4⟩
          have h4 : st4.handler = st.handler := by
            have := runHandler_handler env hi st (fun ho => hni hi st.hcount ho)
            rw [hr] at this
            exact this
          rcases oe with _ | e
          · rw [newRetryLoop_succ_of_handler_ok env region n hlt hh hr, ih st4, h4]
            exact hh
          · rw [newRetryLoop_succ_of_handler_raise env region n hlt hh hr]
            exact h4.trans hh
      · rw [newRetryLoop_succ_of_le env region n hge]

theorem newRetryLoop_retry_succeeds (env : HandlerEnv) (region : Region)
    {hi m : Nat} (hfree : ∀ i, env hi i = .free m) (fuel : Nat) :
    ∀ {size : Nat} (st : MemState), st.handler = some hi →
    size ≤ st.heap.avail + fuel * m →
    ∃ p st', newRetryLoop env region (fuel + 1) size st = (.ok p, st') ∧
      p ≠ 0 ∧ st'.hcount ≤ st.hcount + fuel := by
  induction fuel with
  | zero =>
      intro size st _hh hsz
      rw [Nat.zero_mul, Nat.add_zero] at hsz
      rw [newRetryLoop_succ_of_le env region 0 hsz]
      exact ⟨st.heap.next + 1, _, rfl, Nat.succ_ne_zero _, Nat.le_refl _⟩
  | succ n ih =>
      intro size st hh hsz
      rcases Nat.lt_or_ge st.heap.avail size with hlt | hge
      · have hr := runHandler_free_eq env st (hfree st.hcount)
        rw [newRetryLoop_succ_of_handler_ok env region (n + 1) hlt hh hr]
        have hh4 :
            ({ st with
                hcount := st.hcount + 1
                heap := { st.heap with avail := st.heap.avail + m } } :
              MemState).handler = some hi := hh
        have hsz4 :
            size ≤
              ({ st with
                  hcount := st.hcount + 1
                  heap := { st.heap with avail := st.heap.avail + m } } :
                MemState).heap.avail + n * m := by
          show size ≤ st.heap.avail + m + n * m
          rw [Nat.succ_mul] at hsz
          omega
        obtain ⟨p, st', hloop, hp, hcnt⟩ := ih _ hh4 hsz4
        refine ⟨p, st', hloop, hp, ?_⟩
        have hcnt' : st'.hcount ≤ st.hcount + 1 + n := hcnt
        omega
      · rw [newRetryLoop_succ_of_le env region (n + 1) hge]
        exact ⟨st.heap.next + 1, _, rfl, Nat.succ_ne_zero _, Nat.le_add_right _ _⟩

/-! Helper lemmas about the finalizer table. -/

theorem gcBase_le {q : Ptr} {h : Heap} {b : Ptr} (hb : gcBase q h = some b) :
    b ≤ q := by
  unfold gcBase at hb
  rcases hfind : h.allocs.find? (fun a => decide (a.ptr ≤ q ∧ q < a.ptr + a.size))
    with _ | a
  · rw [hfind] at hb
    cases hb
  · rw [hfind] at hb
    have hp := List.find?_some hfind
    simp only [decide_eq_true_eq] at hp
    simp only [Option.map_some'] at hb
    injection hb with hb
    rw [← hb]
    exact hp.1

theorem find?_filter_ne_key (l : List (Ptr × Nat)) {b bx : Ptr} (hne : b ≠ bx) :
    (l.filter (fun e => decide (e.1 ≠ bx))).find? (fun e => decide (e.1 = b)) =
      l.find? (fun e => decide (e.1 = b)) := by
  induction l with
  | nil => rfl
  | cons e tl ih =>
      rw [List.filter_cons]
      by_cases he : e.1 = bx
      · have hcond : (decide (e.1 ≠ bx)) = false := by simp [he]
        have h2 : (decide (e.1 = b)) = false := by
          simp only [decide_eq_false_iff_not]
          exact fun hx => hne (by rw [← hx, he])
        rw [hcond]
        simp only [Bool.false_eq_true, if_false]
        rw [ih, List.find?_cons, h2]
      · have hcond : (decide (e.1 ≠ bx)) = true := by simp [he]
        rw [hcond]
        simp only [if_true]
        rw [List.find?_cons, List.find?_cons]
        cases hp : decide (e.1 = b)
        · exact ih
        · rfl

theorem countP_filter_ne_key (l : List (Ptr × Nat)) (b : Ptr) :
    (l.filter (fun e => decide (e.1 ≠ b))).countP (fun e => decide (e.1 = b)) = 0 := by
  rw [List.countP_eq_zero]
  intro e he
  have := (List.mem_filter.mp he).2
  simp only [decide_eq_true_eq] at this
  simp only [decide_eq_true_eq]
  exact this

theorem finCount_register (base : Ptr) (off : Nat) (h : Heap) :
    finCount base (gcRegisterFinalizerIgnoreSelf base true off h) = 1 := by
  unfold finCount gcRegisterFinalizerIgnoreSelf
  simp only [if_pos]
  rw [List.countP_cons]
  simp only [decide_eq_true_eq]
  rw [countP_filter_ne_key]
  simp

theorem finLookup_register (base : Ptr) (off : Nat) (h : Heap) :
    finLookup base (gcRegisterFinalizerIgnoreSelf base true off h) = some off := by
  unfold finLookup gcRegisterFinalizerIgnoreSelf
  simp [List.find?_cons]

theorem finLookup_register_other {b bx : Ptr} (hne : b ≠ bx) (flag : Bool)
    (off : Nat) (h : Heap) :
    finLookup b (gcRegisterFinalizerIgnoreSelf bx flag off h) = finLookup b h := by
  unfold finLookup gcRegisterFinalizerIgnoreSelf
  cases flag
  · simp only [Bool.false_eq_true, if_false]
    rw [find?_filter_ne_key _ hne]
  · simp only [if_true]
    have h2 : (decide ((bx, off).1 = b)) = false := by
      simp only [decide_eq_false_iff_not]
      exact fun hx => hne hx.symm
    rw [List.find?_cons]
    simp only [h2, Bool.false_eq_true, if_false]
    rw [find?_filter_ne_key _ hne]

theorem deregister_idempotent (base : Ptr) (h : Heap) :
    gcRegisterFinalizerIgnoreSelf base false 0
        (gcRegisterFinalizerIgnoreSelf base false 0 h) =
      gcRegisterFinalizerIgnoreSelf base false 0 h := by
  unfold gcRegisterFinalizerIgnoreSelf
  simp [List.filter_filter]

theorem deregister_of_absent {base : Ptr} {h : Heap}
    (habs : ∀ e ∈ h.fin, e.1 ≠ base) :
    gcRegisterFinalizerIgnoreSelf base false 0 h = h := by
  unfold gcRegisterFinalizerIgnoreSelf
  have : h.fin.filter (fun e => decide (e.1 ≠ base)) = h.fin := by
    rw [List.filter_eq_self]
    intro e he
    simp only [decide_eq_true_eq]
    exact habs e he
  simp only [Bool.false_eq_true, if_false, this]

theorem gcAlloc_fin (region : Region) (size : Nat) (h : Heap) :
    (gcAlloc region size h).2.fin = h.fin := by
  unfold gcAlloc
  split <;> rfl

theorem gcFree_fin (p : Ptr) (h : Heap) : (gcFree p h).fin = h.fin := rfl

theorem gcFree_avail (p : Ptr) (h : Heap) : (gcFree p h).avail = h.avail := rfl

theorem register_allocs (base : Ptr) (flag : Bool) (off : Nat) (h : Heap) :
    (gcRegisterFinalizerIgnoreSelf base flag off h).allocs = h.allocs := by
  unfold gcRegisterFinalizerIgnoreSelf
  split <;> rfl

theorem gcBase_register (q base : Ptr) (flag : Bool) (off : Nat) (h : Heap) :
    gcBase q (gcRegisterFinalizerIgnoreSelf base flag off h) = gcBase q h := by
  unfold gcBase
  rw [register_allocs]

/-! Helper lemmas about the non-throwing wrapper. -/

theorem catchBadAlloc_snd (r : NewResult × MemState) :
    (catchBadAlloc r).2 = r.2 := by
  rcases r with ⟨rr, st1⟩
  cases rr with
  | ok p => rfl
  | raised e => cases e <;> rfl
  | outOfFuel => rfl

theorem nothrowLoop_spec (env : HandlerEnv) (region : Region)
    (fuel size : Nat) (st : MemState) :
    ((catchBadAlloc (newRetryLoop env region fuel size st)).1 = .ret 0 ↔
      (newRetryLoop env region fuel size st).1 = .raised .badAlloc) ∧
    (∀ p, p ≠ 0 →
      ((catchBadAlloc (newRetryLoop env region fuel size st)).1 = .ret p ↔
        (newRetryLoop env region fuel size st).1 = .ok p)) ∧
    (∀ e, ((catchBadAlloc (newRetryLoop env region fuel size st)).1 = .raised e ↔
      ((newRetryLoop env region fuel size st).1 = .raised e ∧ e ≠ .badAlloc))) := by
  rcases heq : newRetryLoop env region fuel size st with ⟨rr, st1⟩
  have hfst : (newRetryLoop env region fuel size st).1 = rr := by rw [heq]
  cases rr with
  | ok p =>
      have hp : p ≠ 0 := newRetryLoop_ok_ne_zero env region fuel st heq
      refine ⟨by simp [catchBadAlloc, hp], ?_, ?_⟩
      · intro q _hq
        simp [catchBadAlloc]
      · intro e
        simp [catchBadAlloc]
  | raised e =>
      cases e <;> simp [catchBadAlloc]
      exact fun p hp h0 => hp h0.symm
  | outOfFuel => simp [catchBadAlloc]

/-! Helper lemmas about event-trace ordering. -/

theorem noLaterOcc_append {p q : Event → Bool} {A tail : List Event}
    (hA : ∀ e ∈ A, p e = false) (ht : noLaterOcc p q tail = true) :
    noLaterOcc p q (A ++ tail) = true := by
  induction A with
  | nil => simpa using ht
  | cons e tlA ih =>
      have hpe : p e = false := hA e (List.mem_cons_self _ _)
      rw [List.cons_append]
      unfold noLaterOcc
      rw [hpe]
      simp only [Bool.false_eq_true, if_false, Bool.true_and]
      exact ih (fun x hx => hA x (List.mem_cons_of_mem _ hx))

theorem dtorBody_isFinCancel_false (levels : Nat) (addr : Ptr) :
    ∀ e ∈ (List.range levels).map (fun i => Event.dtorBody i addr),
      Event.isFinCancel e = false := by
  intro e he
  obtain ⟨i, -, rfl⟩ := List.mem_map.mp he
  rfl

theorem dtorBody_isMemFree_false (levels : Nat) (addr : Ptr) :
    ∀ e ∈ (List.range levels).map (fun i => Event.dtorBody i addr),
      Event.isMemFree e = false := by
  intro e he
  obtain ⟨i, -, rfl⟩ := List.mem_map.mp he
  rfl

/-! Concrete fixtures used by the witness theorems. -/

/-- A handler environment where every handler reclaims one char per call. -/
def envFreeOne : HandlerEnv := fun _ _ => .free 1

/-- A handler environment where every handler raises a non-bad_alloc
exception. -/
def envRaiseSeven : HandlerEnv := fun _ _ => .raiseOther 7

/-- An exhausted heap. -/
def heapTight : Heap := ⟨0, 0, [], []⟩

/-- Exhausted heap, handler 0 installed. -/
def stTight : MemState := ⟨heapTight, some 0, 0⟩

/-- Exhausted heap, no handler installed. -/
def stTightNoHandler : MemState := ⟨heapTight, none, 0⟩

/-- A heap holding one collectable allocation of 4 chars at address 3. -/
def stObj : MemState := ⟨⟨10, 7, [⟨3, 4, .collectable⟩], []⟩, none, 0⟩

/-- A heap with free space but no allocations (so no address has a base). -/
def stStack : MemState := ⟨⟨10, 0, [], []⟩, none, 0⟩

/-! Claim theorems. -/

/-- Claim C1: every throwing allocation entry point (the replacement global
operator new and Collectable::operator new) follows exactly the retry
algorithm: both are the retry loop over their region; if the collector
grants the request the pointer is returned at once with no handler
invocation and the result is never null; if the collector fails and no
handler is installed, std::bad_alloc is raised right after that single
attempt with zero handler invocations and no other state change; if a
handler is installed it is invoked exactly once and the whole loop repeats
(or its exception propagates); and with a handler that frees memory each
call, the allocation succeeds after at most the needed number of handler
invocations. -/
theorem c1_throwing_alloc_retry_contract :
    (∀ env fuel size st,
      opNewGlobal env fuel size st = newRetryLoop env .uncollectable fuel size st) ∧
    (∀ env fuel size st,
      Collectable.opNew env fuel size st = newRetryLoop env .collectable fuel size st) ∧
    (∀ (env : HandlerEnv) (region : Region) (fuel size : Nat) (st : MemState),
      size ≤ st.heap.avail →
      ∃ st', newRetryLoop env region (fuel + 1) size st =
          (.ok (st.heap.next + 1), st') ∧ st'.hcount = st.hcount) ∧
    (∀ (env : HandlerEnv) (region : Region) (fuel size : Nat) (st : MemState)
      (p : Ptr) (st' : MemState),
      newRetryLoop env region fuel size st = (.ok p, st') → p ≠ 0) ∧
    (∀ (env : HandlerEnv) (region : Region) (fuel size : Nat) (st : MemState),
      st.heap.avail < size → st.handler = none →
      newRetryLoop env region (fuel + 1) size st = (.raised .badAlloc, st)) ∧
    (∀ (env : HandlerEnv) (region : Region) (fuel size hi : Nat)
      (st st4 : MemState),
      st.heap.avail < size → st.handler = some hi →
      runHandler env hi st = (none, st4) →
      newRetryLoop env region (fuel + 1) size st =
          newRetryLoop env region fuel size st4 ∧
        st4.hcount = st.hcount + 1) ∧
    (∀ (env : HandlerEnv) (region : Region) (fuel size hi : Nat)
      (st st4 : MemState) (e : Exn),
      st.heap.avail < size → st.handler = some hi →
      runHandler env hi st = (some e, st4) →
      newRetryLoop env region (fuel + 1) size st = (.raised e, st4) ∧
        st4.hcount = st.hcount + 1) ∧
    (∀ (env : HandlerEnv) (region : Region) (hi m fuel size : Nat)
      (st : MemState),
      (∀ i, env hi i = HandlerAction.free m) → st.handler = some hi →
      size ≤ st.heap.avail + fuel * m →
      ∃ p st', newRetryLoop env region (fuel + 1) size st = (.ok p, st') ∧
        p ≠ 0 ∧ st'.hcount ≤ st.hcount + fuel) := by
  refine ⟨fun _ _ _ _ => rfl, fun _ _ _ _ => rfl, ?_, ?_, ?_, ?_, ?_, ?_⟩
  · intro env region fuel size st hle
    exact ⟨_, newRetryLoop_succ_of_le env region fuel hle, rfl⟩
  · intro env region fuel size st p st' heq
    exact newRetryLoop_ok_ne_zero env region fuel st heq
  · intro env region fuel size st hlt hh
    exact newRetryLoop_succ_of_no_handler env region fuel hlt hh
  · intro env region fuel size hi st st4 hlt hh hr
    refine ⟨newRetryLoop_succ_of_handler_ok env region fuel hlt hh hr, ?_⟩
    have := runHandler_hcount env hi st
    rw [hr] at this
    exact this
  · intro env region fuel size hi st st4 e hlt hh hr
    refine ⟨newRetryLoop_succ_of_handler_raise env region fuel hlt hh hr, ?_⟩
    have := runHandler_hcount env hi st
    rw [hr] at this
    exact this
  · intro env region hi m fuel size st hfree hh hsz
    exact newRetryLoop_retry_succeeds env region hfree fuel st hh hsz

/-- Witness for C1: with one char reclaimed per handler call on an
exhausted heap, a 3-char request succeeds within 3 handler invocations. -/
theorem c1_throwing_alloc_retry_contract_witness :
    ∃ p st', newRetryLoop envFreeOne .uncollectable (3 + 1) 3 stTight =
        (.ok p, st') ∧ p ≠ 0 ∧ st'.hcount ≤ stTight.hcount + 3 :=
  c1_throwing_alloc_retry_contract.2.2.2.2.2.2.2 envFreeOne .uncollectable 0 1 3 3
    stTight (fun _ => rfl) rfl (by decide)

/-- Claim C2: under the same collector and handler state, the non-throwing
allocation returns null (0) exactly when the throwing allocation of the
same size raises std::bad_alloc, and returns a non-null pointer p exactly
when the throwing allocation succeeds with p — in which case p is a live
allocation of the requested size; both non-throwing operators delegate to
the throwing variant, finishing in the same state it does. -/
theorem c2_nothrow_throw_equivalence (env : HandlerEnv) (fuel size : Nat)
    (st : MemState) :
    ((opNewGlobalNothrow env fuel size st).2 = (opNewGlobal env fuel size st).2) ∧
    ((opNewGlobalNothrow env fuel size st).1 = .ret 0 ↔
      (opNewGlobal env fuel size st).1 = .raised .badAlloc) ∧
    (∀ p, p ≠ 0 →
      ((opNewGlobalNothrow env fuel size st).1 = .ret p ↔
        (opNewGlobal env fuel size st).1 = .ok p)) ∧
    (∀ p st', opNewGlobal env fuel size st = (.ok p, st') →
      p ≠ 0 ∧ (⟨p, size, .uncollectable⟩ : Alloc) ∈ st'.heap.allocs) ∧
    ((Collectable.opNewNothrow env fuel size st).2 =
      (Collectable.opNew env fuel size st).2) ∧
    ((Collectable.opNewNothrow env fuel size st).1 = .ret 0 ↔
      (Collectable.opNew env fuel size st).1 = .raised .badAlloc) ∧
    (∀ p, p ≠ 0 →
      ((Collectable.opNewNothrow env fuel size st).1 = .ret p ↔
        (Collectable.opNew env fuel size st).1 = .ok p)) ∧
    (∀ p st', Collectable.opNew env fuel size st = (.ok p, st') →
      p ≠ 0 ∧ (⟨p, size, .collectable⟩ : Alloc) ∈ st'.heap.allocs) := by
  refine ⟨catchBadAlloc_snd _, (nothrowLoop_spec env .uncollectable fuel size st).1,
    (nothrowLoop_spec env .uncollectable fuel size st).2.1, ?_,
    catchBadAlloc_snd _, (nothrowLoop_spec env .collectable fuel size st).1,
    (nothrowLoop_spec env .collectable fuel size st).2.1, ?_⟩
  · intro p st' heq
    exact ⟨newRetryLoop_ok_ne_zero env .uncollectable fuel st heq,
      newRetryLoop_ok_mem env .uncollectable fuel st heq⟩
  · intro p st' heq
    exact ⟨newRetryLoop_ok_ne_zero env .collectable fuel st heq,
      newRetryLoop_ok_mem env .collectable fuel st heq⟩

/-- Witness for C2: on an exhausted heap with no handler, the throwing
global operator raises std::bad_alloc and the non-throwing one returns
null. -/
theorem c2_nothrow_throw_equivalence_witness :
    (opNewGlobalNothrow envFreeOne 1 5 stTightNoHandler).1 = .ret 0 ∧
      (opNewGlobal envFreeOne 1 5 stTightNoHandler).1 = .raised .badAlloc :=
  ⟨((c2_nothrow_throw_equivalence envFreeOne 1 5 stTightNoHandler).2.1).mpr
      (by decide),
    by decide⟩

/-- Claim C9: the non-throwing wrappers convert only std::bad_alloc into a
null return; an exception other than std::bad_alloc raised during the retry
loop (e.g. by the installed handler) propagates out of the non-throwing
operator unchanged, and conversely every exception escaping a non-throwing
operator is not std::bad_alloc. -/
theorem c9_nothrow_propagates_other_exceptions (env : HandlerEnv)
    (fuel size : Nat) (st : MemState) :
    (∀ e, ((opNewGlobalNothrow env fuel size st).1 = .raised e ↔
      ((opNewGlobal env fuel size st).1 = .raised e ∧ e ≠ .badAlloc))) ∧
    (∀ e, ((Collectable.opNewNothrow env fuel size st).1 = .raised e ↔
      ((Collectable.opNew env fuel size st).1 = .raised e ∧ e ≠ .badAlloc))) :=
  ⟨(nothrowLoop_spec env .uncollectable fuel size st).2.2,
    (nothrowLoop_spec env .collectable fuel size st).2.2⟩

/-- Witness for C9: a handler that raises a non-bad_alloc exception makes
that exception escape the non-throwing global operator. -/
theorem c9_nothrow_propagates_other_exceptions_witness :
    (opNewGlobalNothrow envRaiseSeven 1 5 stTight).1 = .raised (.other 7) :=
  ((c9_nothrow_propagates_other_exceptions envRaiseSeven 1 5 stTight).1
      (.other 7)).mpr ⟨by decide, by decide⟩

/-- Claim C10: provided the installed handler does not itself change the
process-wide new handler, every allocation operation — the retry loop and
both non-throwing wrappers — finishes (returning or raising) with the
installed new handler it started with. -/
theorem c10_new_handler_frame (env : HandlerEnv) (region : Region)
    (fuel size : Nat) (st : MemState) (hni : noInstallEnv env) :
    ((newRetryLoop env region fuel size st).2).handler = st.handler ∧
    ((opNewGlobalNothrow env fuel size st).2).handler = st.handler ∧
    ((Collectable.opNewNothrow env fuel size st).2).handler = st.handler := by
  refine ⟨newRetryLoop_handler_frame env region hni fuel st, ?_, ?_⟩
  · rw [show (opNewGlobalNothrow env fuel size st).2 =
        (opNewGlobal env fuel size st).2 from catchBadAlloc_snd _]
    exact newRetryLoop_handler_frame env .uncollectable hni fuel st
  · rw [show (Collectable.opNewNothrow env fuel size st).2 =
        (Collectable.opNew env fuel size st).2 from catchBadAlloc_snd _]
    exact newRetryLoop_handler_frame env .collectable hni fuel st

/-- Witness for C10: running the retry loop to exhaustion and through
handler invocations with a non-installing handler leaves handler 0
installed. -/
theorem c10_new_handler_frame_witness :
    ((newRetryLoop envFreeOne .uncollectable 2 5 stTight).2).handler =
      stTight.handler :=
  (c10_new_handler_frame envFreeOne .uncollectable 2 5 stTight
      (fun _ _ _ h => HandlerAction.noConfusion h)).1

/-- Claim C3: for every size and for every pointer (null included), the four
class-scoped array operators of Facsimile::Collectable raise their
not-supported exception — ArrayNewNotSupportedException for the two new[]
forms and ArrayDeleteNotSupportedException for the two delete[] forms, both
distinct from std::bad_alloc — and leave the entire state untouched: no
memory is allocated or freed, no retry happens, and the new handler is
never consulted (handler slot and invocation count unchanged). -/
theorem c3_array_operators_always_fail (size : Nat) (p : Ptr) (st : MemState) :
    Collectable.opNewArray size st = (.raised .arrayNewNotSupported, st) ∧
    Collectable.opNewArrayNothrow size st = (.raised .arrayNewNotSupported, st) ∧
    Collectable.opDeleteArray p st = (some .arrayDeleteNotSupported, st) ∧
    Collectable.opDeleteArrayNothrow p st = (some .arrayDeleteNotSupported, st) ∧
    Exn.arrayNewNotSupported ≠ Exn.badAlloc ∧
    Exn.arrayDeleteNotSupported ≠ Exn.badAlloc ∧
    Exn.arrayNewNotSupported ≠ Exn.arrayDeleteNotSupported :=
  ⟨rfl, rfl, rfl, rfl, by decide, by decide, by decide⟩

/-- Claim C8: a zero-size request never fails: each allocating entry point
(global and Collectable, throwing and non-throwing, and the global array
forms) succeeds on the first attempt with a non-null pointer and no handler
involvement; the throwing forms record a live zero-size allocation usable
with the matching deallocation, which removes it again. -/
theorem c8_zero_size_allocation_succeeds (env : HandlerEnv) (st : MemState)
    (fuel : Nat) (hfuel : 1 ≤ fuel) :
    (∃ p st', opNewGlobal env fuel 0 st = (.ok p, st') ∧ p ≠ 0 ∧
      st'.hcount = st.hcount ∧
      (⟨p, 0, .uncollectable⟩ : Alloc) ∈ st'.heap.allocs ∧
      (((opDeleteGlobal p st').heap.allocs.all
        fun a => decide (a.ptr ≠ p)) = true)) ∧
    (∃ p st', Collectable.opNew env fuel 0 st = (.ok p, st') ∧ p ≠ 0 ∧
      st'.hcount = st.hcount ∧
      (⟨p, 0, .collectable⟩ : Alloc) ∈ st'.heap.allocs) ∧
    (∃ p st', opNewArrayGlobal env fuel 0 st = (.ok p, st') ∧ p ≠ 0) ∧
    (∃ p st', opNewGlobalNothrow env fuel 0 st = (.ret p, st') ∧ p ≠ 0) ∧
    (∃ p st', opNewArrayGlobalNothrow env fuel 0 st = (.ret p, st') ∧ p ≠ 0) ∧
    (∃ p st', Collectable.opNewNothrow env fuel 0 st = (.ret p, st') ∧ p ≠ 0) := by
  obtain ⟨f, rfl⟩ : ∃ f, fuel = f + 1 :=
    ⟨fuel - 1, (Nat.succ_pred_eq_of_pos hfuel).symm⟩
  have hz : (0 : Nat) ≤ st.heap.avail := Nat.zero_le _
  have hgu := newRetryLoop_succ_of_le env .uncollectable f hz
  have hgc := newRetryLoop_succ_of_le env .collectable f hz
  have hfree : ∀ (st2 : MemState) (p : Ptr),
      (((opDeleteGlobal p st2).heap.allocs.all
        fun a => decide (a.ptr ≠ p)) = true) := by
    intro st2 p
    rw [List.all_eq_true]
    intro a ha
    exact (List.mem_filter.mp ha).2
  refine ⟨⟨st.heap.next + 1, _, hgu, Nat.succ_ne_zero _, rfl,
      List.mem_cons_self _ _, hfree _ _⟩,
    ⟨st.heap.next + 1, _, hgc, Nat.succ_ne_zero _, rfl, List.mem_cons_self _ _⟩,
    ⟨st.heap.next + 1, _, hgu, Nat.succ_ne_zero _⟩, ?_, ?_, ?_⟩
  · have h : opNewGlobalNothrow env (f + 1) 0 st =
        catchBadAlloc (newRetryLoop env .uncollectable (f + 1) 0 st) := rfl
    rw [hgu] at h
    exact ⟨st.heap.next + 1, _, h, Nat.succ_ne_zero _⟩
  · have h : opNewArrayGlobalNothrow env (f + 1) 0 st =
        catchBadAlloc (newRetryLoop env .uncollectable (f + 1) 0 st) := rfl
    rw [hgu] at h
    exact ⟨st.heap.next + 1, _, h, Nat.succ_ne_zero _⟩
  · have h : Collectable.opNewNothrow env (f + 1) 0 st =
        catchBadAlloc (newRetryLoop env .collectable (f + 1) 0 st) := rfl
    rw [hgc] at h
    exact ⟨st.heap.next + 1, _, h, Nat.succ_ne_zero _⟩

/-- Witness for C8: a zero-size request on the exhausted no-handler heap
still succeeds through the throwing global operator. -/
theorem c8_zero_size_allocation_succeeds_witness :
    ∃ p st', opNewGlobal envFreeOne 1 0 stTightNoHandler = (.ok p, st') ∧
      p ≠ 0 ∧ st'.hcount = stTightNoHandler.hcount ∧
      (⟨p, 0, .uncollectable⟩ : Alloc) ∈ st'.heap.allocs ∧
      (((opDeleteGlobal p st').heap.allocs.all
        fun a => decide (a.ptr ≠ p)) = true) :=
  (c8_zero_size_allocation_succeeds envFreeOne stTightNoHandler 1
      (by decide)).1

/-! Further structural lemmas about the Collectable lifecycle functions. -/

theorem initializeImpl_of_base {addr b : Ptr} {st : MemState}
    (hb : gcBase addr st.heap = some b) :
    Collectable.initializeImpl addr st =
      { st with heap := gcRegisterFinalizerIgnoreSelf b true (addr - b) st.heap } := by
  unfold Collectable.initializeImpl
  rw [hb]

theorem initializeImpl_of_none {addr : Ptr} {st : MemState}
    (hb : gcBase addr st.heap = none) :
    Collectable.initializeImpl addr st = st := by
  unfold Collectable.initializeImpl
  rw [hb]

theorem dtorImpl_of_base {addr b : Ptr} {st : MemState}
    (hb : gcBase addr st.heap = some b) :
    Collectable.dtorImpl addr st =
      { st with heap := gcRegisterFinalizerIgnoreSelf b false 0 st.heap } := by
  unfold Collectable.dtorImpl
  rw [hb]

theorem dtorImpl_of_none {addr : Ptr} {st : MemState}
    (hb : gcBase addr st.heap = none) :
    Collectable.dtorImpl addr st = st := by
  unfold Collectable.dtorImpl
  rw [hb]

theorem finLookup_deregister (b : Ptr) (h : Heap) :
    finLookup b (gcRegisterFinalizerIgnoreSelf b false 0 h) = none := by
  unfold finLookup gcRegisterFinalizerIgnoreSelf
  simp only [Bool.false_eq_true, if_false]
  have : (h.fin.filter (fun e => decide (e.1 ≠ b))).find?
      (fun e => decide (e.1 = b)) = none := by
    rw [List.find?_eq_none]
    intro e he
    have h2 := (List.mem_filter.mp he).2
    simp only [decide_eq_true_eq] at h2 ⊢
    exact h2
  rw [this]
  rfl

/-- Claim C4 (counterexample): the claim says the finalizer registration is
cancelled before any part of the destructor chain runs on the manual delete
path.  In the code the cancellation lives in the base ~Collectable body,
which C++ runs after the derived destructor bodies: already with one derived
level the trace has a destructor body strictly before the cancellation. -/
theorem c4_cancel_before_dtor_chain_refuted :
    noLaterOcc Event.isDtorBody Event.isFinCancel
      (Collectable.deleteExprTrace 1 5 (some 3)) = false := by decide

/-- Claim C4 (amended): on the manual delete path of a collector-allocated
object the destructor chain runs first, top-most-derived to base; the
finalizer registration for the base address is cancelled exactly once, in
the base ~Collectable body — after every derived destructor body — and
before the memory is released back to the collector. -/
theorem c4_manual_delete_cancel_order (levels : Nat) (addr b : Ptr) :
    Collectable.deleteExprTrace levels addr (some b) =
      ((List.range levels).map fun i => Event.dtorBody i addr) ++
        [Event.finCancel b, Event.memFree addr] ∧
    noLaterOcc Event.isFinCancel Event.isDtorBody
      (Collectable.deleteExprTrace levels addr (some b)) = true ∧
    noLaterOcc Event.isMemFree Event.isFinCancel
      (Collectable.deleteExprTrace levels addr (some b)) = true ∧
    (Collectable.deleteExprTrace levels addr (some b)).count
      (Event.finCancel b) = 1 := by
  have htr : Collectable.deleteExprTrace levels addr (some b) =
      ((List.range levels).map fun i => Event.dtorBody i addr) ++
        [Event.finCancel b, Event.memFree addr] := by
    unfold Collectable.deleteExprTrace Collectable.dtorChainTrace
    rw [List.append_assoc]
    rfl
  refine ⟨htr, ?_, ?_, ?_⟩
  · rw [htr]
    exact noLaterOcc_append (dtorBody_isFinCancel_false levels addr) rfl
  · rw [htr]
    exact noLaterOcc_append (dtorBody_isMemFree_false levels addr) rfl
  · rw [htr, List.count_append]
    have h0 : ((List.range levels).map fun i => Event.dtorBody i addr).count
        (Event.finCancel b) = 0 := by
      rw [List.count_eq_zero]
      intro hmem
      obtain ⟨i, -, h⟩ := List.mem_map.mp hmem
      cases h
    rw [h0]
    simp [List.count_cons]

/-- Claim C5: once the Collectable constructor layer has run for a
collector-allocated instance (both the default and the copy constructor run
the same registration via initialize), exactly one finalizer registration
for the instance's base address exists, and it points back at the instance;
the registration is untouched by allocations, frees, handler invocations
and registrations of other objects; the destructor removes any remaining
registration for the base address, idempotently, and is a no-op when no
registration was ever made. -/
theorem c5_finalizer_registration_invariant (st : MemState) (addr b : Ptr)
    (hb : gcBase addr st.heap = some b) :
    finLookup b (Collectable.initializeImpl addr st).heap = some (addr - b) ∧
    finCount b (Collectable.initializeImpl addr st).heap = 1 ∧
    Collectable.cleanupTarget b (addr - b) = addr ∧
    (∀ (region : Region) (size2 : Nat),
      (gcAlloc region size2 (Collectable.initializeImpl addr st).heap).2.fin =
        (Collectable.initializeImpl addr st).heap.fin) ∧
    (∀ (p : Ptr) (h2 : Heap), (gcFree p h2).fin = h2.fin) ∧
    (∀ (env : HandlerEnv) (hi : Nat) (st2 : MemState),
      (runHandler env hi st2).2.heap.fin = st2.heap.fin) ∧
    (∀ (addr2 b2 : Ptr) (st2 : MemState), gcBase addr2 st2.heap = some b2 →
      b2 ≠ b →
      finLookup b (Collectable.initializeImpl addr2 st2).heap =
        finLookup b st2.heap) ∧
    finLookup b
      (Collectable.dtorImpl addr (Collectable.initializeImpl addr st)).heap =
      none ∧
    (∀ st2 : MemState,
      Collectable.dtorImpl addr (Collectable.dtorImpl addr st2) =
        Collectable.dtorImpl addr st2) ∧
    ((∀ e ∈ st.heap.fin, e.1 ≠ b) → Collectable.dtorImpl addr st = st) := by
  refine ⟨?_, ?_, ?_, ?_, ?_, ?_, ?_, ?_, ?_, ?_⟩
  · rw [initializeImpl_of_base hb]
    exact finLookup_register b (addr - b) st.heap
  · rw [initializeImpl_of_base hb]
    exact finCount_register b (addr - b) st.heap
  · exact Nat.add_sub_cancel' (gcBase_le hb)
  · intro region size2
    exact gcAlloc_fin region size2 _
  · intro p h2
    exact gcFree_fin p h2
  · intro env hi st2
    exact runHandler_fin env hi st2
  · intro addr2 b2 st2 hb2 hne
    rw [initializeImpl_of_base hb2]
    exact finLookup_register_other hne.symm true (addr2 - b2) st2.heap
  · rw [initializeImpl_of_base hb]
    have hb3 : gcBase addr
        ({ st with
            heap := gcRegisterFinalizerIgnoreSelf b true (addr - b) st.heap } :
          MemState).heap = some b := by
      show gcBase addr (gcRegisterFinalizerIgnoreSelf b true (addr - b) st.heap)
        = some b
      rw [gcBase_register]
      exact hb
    rw [dtorImpl_of_base hb3]
    show finLookup b (gcRegisterFinalizerIgnoreSelf b false 0 _) = none
    exact finLookup_deregister b _
  · intro st2
    cases hb2 : gcBase addr st2.heap with
    | none =>
        rw [dtorImpl_of_none hb2, dtorImpl_of_none hb2]
    | some b2 =>
        rw [dtorImpl_of_base hb2]
        have hb3 : gcBase addr
            ({ st2 with
                heap := gcRegisterFinalizerIgnoreSelf b2 false 0 st2.heap } :
              MemState).heap = some b2 := by
          show gcBase addr (gcRegisterFinalizerIgnoreSelf b2 false 0 st2.heap)
            = some b2
          rw [gcBase_register]
          exact hb2
        rw [dtorImpl_of_base hb3]
        show ({ st2 with
            heap := gcRegisterFinalizerIgnoreSelf b2 false 0
              (gcRegisterFinalizerIgnoreSelf b2 false 0 st2.heap) } : MemState) = _
        rw [deregister_idempotent]
  · intro habs
    rw [dtorImpl_of_base hb, deregister_of_absent habs]

/-- Witness for C5: in a heap holding one allocation at base 3 spanning
addresses 3..6, the object at address 5 registers with offset 2. -/
theorem c5_finalizer_registration_invariant_witness :
    finLookup 3 (Collectable.initializeImpl 5 stObj).heap = some (5 - 3) :=
  (c5_finalizer_registration_invariant stObj 5 3 (by decide)).1

/-- Claim C6: the base-plus-offset finalization scheme round-trips: for a
collector-allocated instance at addr with base b, the registered offset
addr - b is well defined (b ≤ addr, matching the source's assertion), the
registration maps b to that offset, and the finalizer's reconstruction
b + offset is exactly addr, where it invokes the virtual destructor
chain. -/
theorem c6_finalizer_roundtrip (st : MemState) (addr b : Ptr) (levels : Nat)
    (hb : gcBase addr st.heap = some b) :
    b ≤ addr ∧
    finLookup b (Collectable.initializeImpl addr st).heap = some (addr - b) ∧
    Collectable.cleanupTarget b (addr - b) = addr ∧
    Collectable.cleanupTrace levels b (addr - b) =
      Collectable.dtorChainTrace levels addr (some b) := by
  have hle : b ≤ addr := gcBase_le hb
  have htgt : Collectable.cleanupTarget b (addr - b) = addr :=
    Nat.add_sub_cancel' hle
  refine ⟨hle, ?_, htgt, ?_⟩
  · rw [initializeImpl_of_base hb]
    exact finLookup_register b (addr - b) st.heap
  · unfold Collectable.cleanupTrace
    rw [htgt]

/-- Witness for C6: the object at address 5 with base 3 reconstructs to
address 5 from base 3 and offset 2. -/
theorem c6_finalizer_roundtrip_witness :
    Collectable.cleanupTarget 3 (5 - 3) = 5 :=
  (c6_finalizer_roundtrip stObj 5 3 1 (by decide)).2.2.1

/-- Claim C7: an instance whose memory the collector does not manage
(GC_base answers null) registers nothing in its constructor and
deregisters nothing in its destructor — both are state no-ops — and its
destruction trace is exactly one run of each destructor body with no
finalizer cancellation. -/
theorem c7_unmanaged_instance_untracked (st : MemState) (addr : Ptr)
    (levels : Nat) (hb : gcBase addr st.heap = none) :
    Collectable.initializeImpl addr st = st ∧
    Collectable.dtorImpl addr st = st ∧
    Collectable.dtorChainTrace levels addr none =
      ((List.range levels).map fun i => Event.dtorBody i addr) ∧
    ((Collectable.dtorChainTrace levels addr none).all
      fun e => !e.isFinCancel) = true ∧
    (∀ i, i < levels →
      (Collectable.dtorChainTrace levels addr none).count
        (Event.dtorBody i addr) = 1) := by
  have htr : Collectable.dtorChainTrace levels addr none =
      ((List.range levels).map fun i => Event.dtorBody i addr) := by
    unfold Collectable.dtorChainTrace
    rw [List.append_nil]
  refine ⟨initializeImpl_of_none hb, dtorImpl_of_none hb, htr, ?_, ?_⟩
  · rw [htr, List.all_eq_true]
    intro e he
    rw [dtorBody_isFinCancel_false levels addr e he]
    rfl
  · intro i hi
    rw [htr]
    have hinj : Function.Injective (fun j => Event.dtorBody j addr) :=
      fun a b h => by injection h
    rw [show Event.dtorBody i addr = (fun j => Event.dtorBody j addr) i from rfl,
      List.count_map_of_injective _ _ hinj]
    exact List.count_eq_one_of_mem (List.nodup_range levels)
      (List.mem_range.mpr hi)

/-- Witness for C7: address 5 in a heap with no allocations has no base, so
construction and destruction of an instance there touch nothing. -/
theorem c7_unmanaged_instance_untracked_witness :
    Collectable.initializeImpl 5 stStack = stStack :=
  (c7_unmanaged_instance_untracked stStack 5 2 (by decide)).1

end Facsimile
